import Mathlib

/-!
Verification of the jwt-blacklist-go credential engine against its
specification. The Go sources are shallowly embedded: pure functions become
Lean functions, the Redis-backed revocation store becomes an explicit
function argument returning `Except`, the JWT wire format is abstracted to
a datatype recording what the signing library determines about a token
(declared algorithm, decoded claims, and the HMAC key its signature
verifies under), and clock reads become explicit integer arguments.
-/

namespace JwtBlacklist

/-- Signing algorithms a token header may declare. `SigningMethodHMAC` in
the library covers HS256/HS384/HS512; everything else (RSA, the "none"
algorithm, unknown names) is outside the HMAC family. -/
inductive Alg
  | HS256
  | HS384
  | HS512
  | RS256
  | noAlg
  | other (name : String)
deriving DecidableEq, Repr

/-- Membership in the HMAC family, mirroring the type assertion
`token.Method.(*jwt.SigningMethodHMAC)` in the Go keyfunc. -/
def Alg.isHMAC : Alg → Bool
  | .HS256 => true
  | .HS384 => true
  | .HS512 => true
  | _ => false

/-- The claims struct `JWTClaims` of internal/auth/jwt.go: user id,
username, role, token id (jti), token type ("access" or "refresh"), plus
the registered expiry and issued-at timestamps (seconds; `none` models an
absent claim). -/
structure JWTClaims where
  userID : Int
  username : String
  role : String
  tokenID : String
  tokenType : String
  expiresAt : Option Int
  issuedAt : Option Int
deriving DecidableEq, Repr

/-- A token string as the jwt library sees it: either not parseable into
header/claims/signature at all, or a well-formed token with a declared
algorithm, decoded claims, and the byte key its signature verifies under
(HMAC unforgeability idealised: the signature matches exactly one key). -/
inductive TokenStr
  | malformed
  | tok (method : Alg) (claims : JWTClaims) (sigKey : String)
deriving DecidableEq, Repr

/-- The jti of a well-formed token (empty for a malformed one). -/
def TokenStr.jti : TokenStr → String
  | .malformed => ""
  | .tok _ c _ => c.tokenID

/-- The claims of a well-formed token. -/
def TokenStr.claims : TokenStr → Option JWTClaims
  | .malformed => none
  | .tok _ c _ => some c

/-- Error classes of `jwt.ParseWithClaims` in the order the library checks
them: malformed input, keyfunc rejection, signature failure, and claims
validation (only the expiry check applies to these claims). -/
inductive ParseError
  | malformed
  | keyfuncError
  | sigInvalid
  | expired
deriving DecidableEq, Repr

/-- Model of `jwt.ParseWithClaims(tokenString, &JWTClaims{}, keyfunc)` at
time `now` with the given HMAC `secret`. `requireHMAC` distinguishes the
two keyfuncs in the source: `VerifyToken` rejects non-HMAC methods inside
the keyfunc, `BlacklistToken` returns the secret unconditionally (a
non-HMAC method then still fails signature verification, since the byte
key fits no other method). The library verifies the signature before
validating claims, so `expired` is reported only for correctly signed
tokens; expiry fails exactly when `expiresAt <= now`, and an absent
`expiresAt` passes validation. -/
def parseWithClaims (secret : String) (now : Int) (requireHMAC : Bool) :
    TokenStr → Except ParseError JWTClaims
  | .malformed => .error .malformed
  | .tok m c k =>
    if requireHMAC && !m.isHMAC then .error .keyfuncError
    else if !(m.isHMAC && k == secret) then .error .sigInvalid
    else
      match c.expiresAt with
      | some e => if e ≤ now then .error .expired else .ok c
      | none => .ok c

/-- Configuration consumed by the JWT manager (config.Config): shared
secret and the two token lifetimes (seconds). -/
structure Config where
  jwtSecret : String
  accessTokenExpiration : Int
  refreshTokenExpiration : Int
deriving Repr

/-- User model (internal/models): the manager reads id, username and role
to mint claims. -/
structure User where
  id : Int
  username : String
  email : String
  password : String
  role : String
deriving Repr

/-- Hex digits of a nonnegative integer, lower case, as produced by
`strconv.FormatInt(x, 16)` (negative values get a leading minus sign). -/
def toHexString (i : Int) : String :=
  if i < 0 then "-" ++ String.mk (Nat.toDigits 16 i.natAbs)
  else String.mk (Nat.toDigits 16 i.toNat)

/-- Model of `generateTokenId` in internal/auth/jwt.go. The source builds
`timestamp := strconv.FormatInt(time.Now().UnixNano(), 16)`, allocates
`randomBytes := make([]byte, 8)` and then never fills it (the line
`_, _ = time.Now().UnixNano(), randomBytes` reads the values and discards
them), so the hash input is the hex timestamp followed by eight zero
bytes. `sha` abstracts `hex.EncodeToString(sha256.Sum256(...))`, a fixed
deterministic function; `nowNano` is the `UnixNano` reading taken inside
the call. -/
def generateTokenId (sha : String → String) (nowNano : Int) : String :=
  let timestamp := toHexString nowNano
  let randomBytes := String.mk (List.replicate 8 (Char.ofNat 0))
  sha (timestamp ++ randomBytes)

/-- Model of `GenerateTokens`: mints the access claims (jti from the clock
reading 0, expiry from reading 1, issued-at from reading 2) and the
refresh claims (readings 3, 4, 5), both signed with HS256 under the
configured secret. `clock` gives the successive `time.Now()` readings of
the call (UnixNano for jti generation, seconds for the claim fields; one
abstract integer timeline serves both). -/
def GenerateTokens (sha : String → String) (cfg : Config) (user : User)
    (clock : Nat → Int) : TokenStr × TokenStr :=
  let accessJti := generateTokenId sha (clock 0)
  let accessClaims : JWTClaims :=
    { userID := user.id, username := user.username, role := user.role,
      tokenID := accessJti, tokenType := "access",
      expiresAt := some (clock 1 + cfg.accessTokenExpiration),
      issuedAt := some (clock 2) }
  let refreshJti := generateTokenId sha (clock 3)
  let refreshClaims : JWTClaims :=
    { userID := user.id, username := user.username, role := user.role,
      tokenID := refreshJti, tokenType := "refresh",
      expiresAt := some (clock 4 + cfg.refreshTokenExpiration),
      issuedAt := some (clock 5) }
  (.tok .HS256 accessClaims cfg.jwtSecret, .tok .HS256 refreshClaims cfg.jwtSecret)

/-- Model of `IsTokenBlacklisted`: `redisCache.Exists(ctx, "blacklist:"+jti)`
is abstracted by `store`, mapping a key to the existence count or to an
infrastructure error; an error is propagated, otherwise the result is
`count > 0`. -/
def IsTokenBlacklisted (store : String → Except String Nat) (jti : String) :
    Except String Bool :=
  match store ("blacklist:" ++ jti) with
  | .error e => .error e
  | .ok n => .ok (decide (0 < n))

/-- Error results of `VerifyToken`: the three sentinel errors of the
source plus a propagated revocation-store error. -/
inductive VerifyError
  | invalidToken
  | tokenExpired
  | blacklisted
  | storeErr (msg : String)
deriving DecidableEq, Repr

/-- The parsing stage of `VerifyToken`: `jwt.ParseWithClaims` with the
HMAC-only keyfunc, then the source collapses every parse failure to
`ErrInvalidToken` except the one matching `jwt.ErrTokenExpired`, which
becomes `ErrTokenExpired`. -/
def verifyParse (secret : String) (now : Int) (t : TokenStr) :
    Except VerifyError JWTClaims :=
  match parseWithClaims secret now true t with
  | .error .expired => .error .tokenExpired
  | .error _ => .error .invalidToken
  | .ok c => .ok c

/-- Model of `VerifyToken`: parse first; on success consult the
blacklist, propagating a store error, reporting `ErrTokenBlacklisted`
when the jti is present, and returning the claims otherwise. -/
def VerifyToken (secret : String) (now : Int)
    (store : String → Except String Nat) (t : TokenStr) :
    Except VerifyError JWTClaims :=
  match verifyParse secret now t with
  | .error e => .error e
  | .ok c =>
    match IsTokenBlacklisted store c.tokenID with
    | .error e => .error (.storeErr e)
    | .ok true => .error .blacklisted
    | .ok false => .ok c

/-- Outcome of `BlacklistToken` on success: `none` means the function
returned nil without writing to Redis, `some (key, ttl)` means it issued
`redisCache.Set(ctx, key, "1", ttl)` (modelled as succeeding). -/
abbrev BlacklistOutcome := Option (String × Int)

/-- Model of `BlacklistToken`: parse with the unconditional keyfunc (the
error is discarded, but the following `!ok || !token.Valid` check rejects
any token the parse did not fully validate, expired ones included); then
compute `ttl = expiresAt - now`, skip the write when `ttl < 0`, use a
24-hour default when the expiry is absent, and otherwise write the
presence record under `"blacklist:" ++ jti`. -/
def BlacklistToken (cfg : Config) (now : Int) (t : TokenStr) :
    Except String BlacklistOutcome :=
  match parseWithClaims cfg.jwtSecret now false t with
  | .error _ => .error "could not parse token claims"
  | .ok c =>
    match c.expiresAt with
    | some e =>
      let ttl := e - now
      if ttl < 0 then .ok none
      else .ok (some ("blacklist:" ++ c.tokenID, ttl))
    | none => .ok (some ("blacklist:" ++ c.tokenID, 86400))

/-- Error results of `RefreshToken`: a verification failure or the
"not a refresh token" rejection. -/
inductive RefreshError
  | verify (e : VerifyError)
  | notRefreshToken
deriving DecidableEq, Repr

/-- Model of `RefreshToken`: verify the presented token, require its type
to be "refresh", then mint a fresh access token for the same user id,
username and role snapshot (clock readings 0, 1, 2 are the `time.Now()`
calls of the mint, as in `GenerateTokens`). -/
def RefreshToken (sha : String → String) (cfg : Config) (now : Int)
    (store : String → Except String Nat) (clock : Nat → Int) (t : TokenStr) :
    Except RefreshError TokenStr :=
  match VerifyToken cfg.jwtSecret now store t with
  | .error e => .error (.verify e)
  | .ok claims =>
    if claims.tokenType ≠ "refresh" then .error .notRefreshToken
    else
      let accessJti := generateTokenId sha (clock 0)
      .ok (.tok .HS256
        { userID := claims.userID, username := claims.username,
          role := claims.role, tokenID := accessJti, tokenType := "access",
          expiresAt := some (clock 1 + cfg.accessTokenExpiration),
          issuedAt := some (clock 2) } cfg.jwtSecret)

/-- Accumulator loop of `stringsSplit`: cut the character list at every
occurrence of the separator, keeping all pieces, empty ones included. -/
def stringsSplitAux (sep : Char) : List Char → List Char → List String
  | [], part => [String.mk part]
  | c :: cs, part =>
      if c = sep then String.mk part :: stringsSplitAux sep cs []
      else stringsSplitAux sep cs (part ++ [c])

/-- Model of Go `strings.Split(s, sep)` for a one-character separator, as
the middleware uses it on the Authorization header: split at every
occurrence of the separator, keeping empty fields (`Split("", sep)` is
`[""]`). -/
def stringsSplit (s : String) (sep : Char) : List String :=
  stringsSplitAux sep s.data []

/-- Result of a middleware handler (internal/middleware): either an
`echo.NewHTTPError(status, msg)` response or the call to the next handler
with the verified claims stored in the request context under "user". -/
inductive GateResult
  | httpError (status : Nat) (msg : String)
  | next (ctxUser : JWTClaims)
deriving DecidableEq, Repr

/-- Model of `AuthMiddleware.Authenticate`: read the Authorization header,
require the "Bearer token" shape (`strings.Split` on a single space),
verify the token (`wire` maps the extracted header substring to the token
it denotes on the wire), map each verification error to its 401 response,
reject non-access token types, and otherwise store the claims and call
the next handler. -/
def Authenticate (secret : String) (now : Int)
    (store : String → Except String Nat) (wire : String → TokenStr)
    (authHeader : String) : GateResult :=
  if authHeader = "" then .httpError 401 "missing authorization header"
  else
    let parts := stringsSplit authHeader ' '
    if parts.length ≠ 2 || parts.getD 0 "" ≠ "Bearer" then
      .httpError 401 "invalid authorization header format"
    else
      let tokenString := parts.getD 1 ""
      match VerifyToken secret now store (wire tokenString) with
      | .error .invalidToken => .httpError 401 "invalid token"
      | .error .tokenExpired => .httpError 401 "token expired"
      | .error .blacklisted => .httpError 401 "token has been revoked"
      | .error (.storeErr e) => .httpError 401 e
      | .ok claims =>
        if claims.tokenType ≠ "access" then .httpError 401 "invalid token type"
        else .next claims

/-- Model of `AuthMiddleware.RequireRole`: read the claims that
`Authenticate` stored in the context (`none` models a failed type
assertion when no claims were stored), 403 when the role differs from the
required one, otherwise call the next handler. -/
def RequireRole (role : String) (ctxUser : Option JWTClaims) : GateResult :=
  match ctxUser with
  | none => .httpError 401 "user not authenticated"
  | some c => if c.role ≠ role then .httpError 403 "insufficient permissions" else .next c

/-- The middleware chain as routes use it: `Authenticate` runs first; only
when it admits the request does `RequireRole` see the stored claims. -/
def AuthenticateThenRequireRole (secret : String) (now : Int)
    (store : String → Except String Nat) (wire : String → TokenStr)
    (authHeader : String) (role : String) : GateResult :=
  match Authenticate secret now store wire authHeader with
  | .httpError s m => .httpError s m
  | .next c => RequireRole role (some c)

/-! Password hasher (internal/models/user.go). Bytes are modelled as
natural numbers below 256; `argon2.IDKey` is an external key-derivation
function and is passed in as an explicit argument `idKey` with the
argument order of the source call site
(password, salt, iterations, memory, parallelism, key length). -/

/-- Byte strings as lists of naturals (each below 256 where it matters). -/
abbrev Bytes := List Nat

/-- The `PasswordParams` struct of internal/models/user.go. -/
structure PasswordParams where
  memory : Nat
  iterations : Nat
  parallelism : Nat
  saltLength : Nat
  keyLength : Nat
deriving DecidableEq, Repr

/-- The package-level `defaultParams` value. -/
def defaultParams : PasswordParams :=
  { memory := 65536, iterations := 3, parallelism := 2,
    saltLength := 16, keyLength := 32 }

/-- Character of the standard base64 alphabet at index `n` (A-Z, a-z,
0-9, +, /), as used by `base64.RawStdEncoding`. -/
def b64Char (n : Nat) : Char :=
  if n < 26 then Char.ofNat (65 + n)
  else if n < 52 then Char.ofNat (97 + (n - 26))
  else if n < 62 then Char.ofNat (48 + (n - 52))
  else if n = 62 then '+'
  else '/'

/-- Index of a character in the standard base64 alphabet, `none` when the
character is not in the alphabet. -/
def b64Val (c : Char) : Option Nat :=
  let n := c.toNat
  if 65 ≤ n && n ≤ 90 then some (n - 65)
  else if 97 ≤ n && n ≤ 122 then some (26 + (n - 97))
  else if 48 ≤ n && n ≤ 57 then some (52 + (n - 48))
  else if n = 43 then some 62
  else if n = 47 then some 63
  else none

/-- Unpadded base64 encoding of a byte list (groups of three bytes into
four alphabet characters; a final group of one or two bytes into two or
three characters), as `base64.RawStdEncoding.EncodeToString` computes. -/
def b64EncodeList : Bytes → List Char
  | [] => []
  | [a] => [b64Char (a / 4), b64Char (a % 4 * 16)]
  | [a, b] => [b64Char (a / 4), b64Char (a % 4 * 16 + b / 16), b64Char (b % 16 * 4)]
  | a :: b :: c :: rest =>
      b64Char (a / 4) :: b64Char (a % 4 * 16 + b / 16) ::
        b64Char (b % 16 * 4 + c / 64) :: b64Char (c % 64) :: b64EncodeList rest

/-- Unpadded base64 decoding: four characters yield three bytes, a final
pair or triple yields one or two bytes, a single leftover character (or a
character outside the alphabet) is an error. Like the non-strict Go
decoder, trailing bits of a final partial group are discarded without
being checked. -/
def b64DecodeList : List Char → Option Bytes
  | [] => some []
  | [_] => none
  | [x, y] => do
      let a ← b64Val x
      let b ← b64Val y
      some [a * 4 + b / 16]
  | [x, y, z] => do
      let a ← b64Val x
      let b ← b64Val y
      let c ← b64Val z
      some [a * 4 + b / 16, b % 16 * 16 + c / 4]
  | x :: y :: z :: w :: rest => do
      let a ← b64Val x
      let b ← b64Val y
      let c ← b64Val z
      let d ← b64Val w
      let tail ← b64DecodeList rest
      some ((a * 4 + b / 16) :: (b % 16 * 16 + c / 4) :: (c % 4 * 64 + d) :: tail)

/-- String form of the unpadded base64 encoder. -/
def b64Encode (bs : Bytes) : String := String.mk (b64EncodeList bs)

/-- String form of the unpadded base64 decoder. The Go decoder skips
carriage returns and newlines anywhere in its input, hence the filter. -/
def b64Decode (s : String) : Option Bytes :=
  b64DecodeList (s.data.filter fun c => c ≠ Char.ofNat 13 && c ≠ Char.ofNat 10)

/-- Model of `subtle.ConstantTimeCompare(x, y) == 1`: true exactly when
the two byte strings have equal length and equal contents. -/
def constantTimeCompare (x y : Bytes) : Bool := x == y

/-- Accumulator-passing loop of `splitHashString`: walk the characters,
cutting at every dollar sign; the final piece is kept only when it is
nonempty. -/
def splitHashAux : List Char → List Char → List String
  | [], part => if part = [] then [] else [String.mk part]
  | c :: cs, part =>
      if c = '$' then String.mk part :: splitHashAux cs []
      else splitHashAux cs (part ++ [c])

/-- Model of `splitHashString`: split on every dollar sign, keeping empty
pieces except for a trailing one (Go appends the final accumulated part
only when it is nonempty). -/
def splitHashString (encodedHash : String) : List String :=
  splitHashAux encodedHash.data []

/-- Match a literal character sequence at the head of the input and
return the remainder (the literal-matching part of `fmt.Sscanf`). -/
def dropLit : List Char → List Char → Option (List Char)
  | [], s => some s
  | _ :: _, [] => none
  | l :: ls, c :: cs => if c = l then dropLit ls cs else none

/-- Maximal run of decimal digits at the head of the input, with the
remainder. -/
def takeDigits : List Char → List Char × List Char
  | [] => ([], [])
  | c :: cs =>
      if c.isDigit then
        let p := takeDigits cs
        (c :: p.1, p.2)
      else ([], c :: cs)

/-- Value of a decimal digit run. -/
def digitsToNat (ds : List Char) : Nat :=
  ds.foldl (fun n c => n * 10 + (c.toNat - 48)) 0

/-- Model of the `fmt.Sscanf(encodedHash, "$argon2id$v=19$m=%d,t=%d,p=%d$", ...)`
call of `decodeHash`: match the literal pieces of the format, read the
three unsigned decimal numbers (each `%d` must find at least one digit),
require the closing dollar sign, and ignore any remaining input. -/
def scanParams (s : List Char) : Option (Nat × Nat × Nat) := do
  let s1 ← dropLit "$argon2id$v=19$m=".data s
  let p1 := takeDigits s1
  if p1.1 = [] then none else do
  let s3 ← dropLit ",t=".data p1.2
  let p2 := takeDigits s3
  if p2.1 = [] then none else do
  let s5 ← dropLit ",p=".data p2.2
  let p3 := takeDigits s5
  if p3.1 = [] then none else do
  let _ ← dropLit "$".data p3.2
  some (digitsToNat p1.1, digitsToNat p2.1, digitsToNat p3.1)

/-- Model of `decodeHash`: scan the parameter prefix, split on dollar
signs and require exactly six parts, base64-decode the salt and the hash,
and record the decoded lengths as `SaltLength` and `KeyLength`. Error
strings are those of the source. -/
def decodeHash (encodedHash : String) :
    Except String (PasswordParams × Bytes × Bytes) :=
  match scanParams encodedHash.data with
  | none => .error "invalid hash format"
  | some (mem, iter, par) =>
    let parts := splitHashString encodedHash
    if parts.length ≠ 6 then .error "invalid hash format"
    else
      match b64Decode (parts.getD 4 "") with
      | none => .error "invalid salt encoding"
      | some salt =>
        match b64Decode (parts.getD 5 "") with
        | none => .error "invalid hash encoding"
        | some hash =>
          .ok ({ memory := mem, iterations := iter, parallelism := par,
                 saltLength := salt.length, keyLength := hash.length },
               salt, hash)

/-- Model of `HashPassword`: derive the key from the password and the
freshly generated random `salt` (the randomness is passed in; the source
draws `SaltLength` bytes from `crypto/rand`) with the default parameters,
and format the record
`$argon2id$v=19$m=<mem>,t=<iter>,p=<par>$<b64 salt>$<b64 hash>`. -/
def HashPassword (idKey : String → Bytes → Nat → Nat → Nat → Nat → Bytes)
    (password : String) (salt : Bytes) : String :=
  let p := defaultParams
  let hash := idKey password salt p.iterations p.memory p.parallelism p.keyLength
  "$argon2id$v=19$m=" ++ toString p.memory ++ ",t=" ++ toString p.iterations ++
    ",p=" ++ toString p.parallelism ++ "$" ++ b64Encode salt ++ "$" ++ b64Encode hash

/-- Model of `VerifyPassword`: decode the record (propagating its error),
re-derive the key with the decoded parameters — in particular with
`KeyLength` as recorded by `decodeHash` — and compare in constant time. -/
def VerifyPassword (idKey : String → Bytes → Nat → Nat → Nat → Nat → Bytes)
    (password encodedHash : String) : Except String Bool :=
  match decodeHash encodedHash with
  | .error e => .error e
  | .ok (params, salt, hash) =>
    let newHash := idKey password salt params.iterations params.memory
      params.parallelism params.keyLength
    .ok (constantTimeCompare hash newHash)

/-- Modelled from the spec: the record format of the external-interfaces
section reads `$<tag>$v=<version>$m=..,t=..,p=..$<salt>$<hash>` as six
dollar-delimited fields under standard splitting, which keeps every
field, a trailing empty one included. This is the spec-side reading to
compare with the code's `splitHashString`, which drops a trailing empty
field. -/
def specSplitDollar (s : String) : List String := stringsSplit s '$'

/-! Concrete values used to evaluate the model (mirroring the test
fixtures of internal/auth/jwt_test.go). -/

/-- A concrete stand-in for the (deterministic) hex-encoded SHA-256 used
in closed evaluations of `generateTokenId`. -/
def shaEx : String → String := fun s => s

/-- Test configuration: 15-minute access tokens, 7-day refresh tokens. -/
def cfgEx : Config :=
  { jwtSecret := "test-secret-key", accessTokenExpiration := 900,
    refreshTokenExpiration := 604800 }

/-- Test user. -/
def userEx : User :=
  { id := 1, username := "testuser", email := "test@example.com",
    password := "", role := "user" }

/-- Claims of a valid access token expiring at time 900. -/
def claimsEx : JWTClaims :=
  { userID := 1, username := "testuser", role := "user", tokenID := "jti-1",
    tokenType := "access", expiresAt := some 900, issuedAt := some 0 }

/-- A valid access token signed with the test secret. -/
def tokEx : TokenStr := .tok .HS256 claimsEx "test-secret-key"

/-- The same token with its expiry at time 50 (already past at time 100). -/
def expiredTokEx : TokenStr :=
  .tok .HS256 { claimsEx with expiresAt := some 50 } "test-secret-key"

/-- A concrete key-derivation function for closed evaluations of the
password hasher: `keyLength` copies of a byte depending on the password
and the salt head, so different passwords and salts derive different
keys. -/
def idKeyEx : String → Bytes → Nat → Nat → Nat → Nat → Bytes :=
  fun pw s _ _ _ kl => List.replicate kl ((pw.length + s.headD 0) % 256)

/-- A 16-byte all-zero salt. -/
def saltEx0 : Bytes := List.replicate 16 0

/-- A second 16-byte salt differing from `saltEx0` in its first byte. -/
def saltEx1 : Bytes := 1 :: List.replicate 15 0

/-- C1: the spec demands pairwise-distinct jti values, even for the two
credentials of one `GenerateTokens` call in the same process tick. The
code violates this: `generateTokenId` never fills its random bytes, so
the jti is a deterministic function of the `UnixNano` reading alone, and
whenever the two readings coincide (a constant clock below) the access
and refresh credentials of a single call carry the same jti — for every
hash function, configuration and user. -/
theorem generateTokens_jti_collision_same_tick (sha : String → String)
    (cfg : Config) (user : User) (t : Int) :
    ((GenerateTokens sha cfg user fun _ => t).1).jti =
      ((GenerateTokens sha cfg user fun _ => t).2).jti := rfl

/-- C3: the spec says revoking an already-expired token is a no-op
success, but `BlacklistToken` returns the error "could not parse token
claims" on such a token: the jwt library validates expiry during
`ParseWithClaims`, so an expired token arrives with `token.Valid == false`
and is rejected before the (dead) `ttl < 0` branch can return nil. Here
the token is correctly signed and expired (expiry 50, current time 100),
and revocation reports an error instead of succeeding. -/
theorem blacklistToken_expired_returns_error :
    BlacklistToken cfgEx 100 expiredTokEx = .error "could not parse token claims" := rfl

/-- C5: the claim requires the refreshed access credential to carry a jti
distinct from the refresh token's own. With the refresh token minted at
tick 0 and `RefreshToken` running in the same tick 0 (store empty, time 0,
well before the refresh expiry), the refresh succeeds but the new access
token reproduces exactly the refresh token's jti, because
`generateTokenId` depends only on the tick. -/
theorem refreshToken_jti_collision_same_tick :
    (RefreshToken shaEx cfgEx 0 (fun _ => .ok 0) (fun _ => 0)
        (GenerateTokens shaEx cfgEx userEx fun _ => 0).2).map TokenStr.jti =
      .ok ((GenerateTokens shaEx cfgEx userEx fun _ => 0).2).jti := rfl

/-- C2: `VerifyToken` consults the revocation store only after parsing
succeeds — when the parsing stage fails, the result is the same for every
store, so a token failing signature or expiry checks never reaches the
store; when parsing succeeds and the store reports the jti revoked, the
distinct blacklisted error is returned even though signature and expiry
passed; and when the store lookup itself fails, that store error is
returned rather than the token being treated as not revoked. -/
theorem verifyToken_store_after_parse (secret : String) (now : Int) (t : TokenStr) :
    (∀ e, verifyParse secret now t = .error e →
      ∀ store1 store2, VerifyToken secret now store1 t = VerifyToken secret now store2 t) ∧
    (∀ c store, verifyParse secret now t = .ok c →
      IsTokenBlacklisted store c.tokenID = .ok true →
      VerifyToken secret now store t = .error .blacklisted) ∧
    (∀ c store msg, verifyParse secret now t = .ok c →
      IsTokenBlacklisted store c.tokenID = .error msg →
      VerifyToken secret now store t = .error (.storeErr msg)) := by
  refine ⟨?_, ?_, ?_⟩
  · intro e he store1 store2
    simp [VerifyToken, he]
  · intro c store hc hbl
    simp [VerifyToken, hc, hbl]
  · intro c store msg hc hstore
    simp [VerifyToken, hc, hstore]

/-- Witness for C2 at concrete inputs: a malformed token verifies
identically under a healthy and a failing store; a valid token whose jti
the store holds is rejected as blacklisted; a valid token under an
erroring store propagates the store error. -/
theorem verifyToken_store_after_parse_witness :
    VerifyToken "test-secret-key" 0 (fun _ => .ok 0) .malformed =
      VerifyToken "test-secret-key" 0 (fun _ => .error "connection refused") .malformed ∧
    VerifyToken "test-secret-key" 0 (fun _ => .ok 1) tokEx = .error .blacklisted ∧
    VerifyToken "test-secret-key" 0 (fun _ => .error "connection refused") tokEx =
      .error (.storeErr "connection refused") :=
  ⟨(verifyToken_store_after_parse "test-secret-key" 0 .malformed).1 .invalidToken
      rfl _ _,
   (verifyToken_store_after_parse "test-secret-key" 0 tokEx).2.1 claimsEx
      (fun _ => .ok 1) rfl rfl,
   (verifyToken_store_after_parse "test-secret-key" 0 tokEx).2.2 claimsEx
      (fun _ => .error "connection refused") "connection refused" rfl rfl⟩

/-- C4: the parsing stage of `VerifyToken` returns the invalid-token
error for any token whose header declares an algorithm outside the HMAC
family, and returns the distinct expired error exactly for tokens that
are correctly signed under the configured secret with an HMAC-family
algorithm and whose expiry lies at or before the current time. -/
theorem verifyParse_rejects_non_hmac_and_expired_iff (secret : String)
    (now : Int) (t : TokenStr) :
    (∀ m c k, t = .tok m c k → m.isHMAC = false →
      verifyParse secret now t = .error .invalidToken) ∧
    (verifyParse secret now t = .error .tokenExpired ↔
      ∃ m c e, t = .tok m c secret ∧ m.isHMAC = true ∧
        c.expiresAt = some e ∧ e ≤ now) := by
  constructor
  · rintro m c k rfl hm
    simp [verifyParse, parseWithClaims, hm]
  · cases t with
    | malformed => simp [verifyParse, parseWithClaims]
    | tok m c k =>
      by_cases hm : m.isHMAC
      · by_cases hk : k = secret
        · subst hk
          cases hexp : c.expiresAt with
          | none => simp [verifyParse, parseWithClaims, hm, hexp]
          | some e =>
            by_cases hle : e ≤ now
            · simp [verifyParse, parseWithClaims, hm, hexp, hle]
              exact ⟨m, c, ⟨rfl, rfl⟩, hm, e, hexp, hle⟩
            · simp [verifyParse, parseWithClaims, hm, hexp, hle]
              omega
        · simp [verifyParse, parseWithClaims, hm, hk]
      · simp [verifyParse, parseWithClaims, hm]

/-- Witness for C4 at concrete inputs: an RS256-signed token is rejected
with the invalid-token error, and a correctly HMAC-signed token whose
expiry (900) is before the current time (1000) is rejected with the
distinct expired error. -/
theorem verifyParse_rejects_non_hmac_and_expired_iff_witness :
    verifyParse "test-secret-key" 0 (.tok .RS256 claimsEx "test-secret-key") =
      .error .invalidToken ∧
    verifyParse "test-secret-key" 1000 tokEx = .error .tokenExpired :=
  ⟨(verifyParse_rejects_non_hmac_and_expired_iff "test-secret-key" 0
      (.tok .RS256 claimsEx "test-secret-key")).1 .RS256 claimsEx "test-secret-key"
      rfl (by decide),
   (verifyParse_rejects_non_hmac_and_expired_iff "test-secret-key" 1000 tokEx).2.mpr
      ⟨.HS256, claimsEx, 900, rfl, rfl, rfl, by decide⟩⟩

/-- C6: the Access Gate admits a request only when `VerifyToken` succeeds
on the presented credential and the resulting claims are of type
"access" (so a refresh-type credential is never admitted); when
`Authenticate` denies, the chained role middleware returns that denial
untouched for every required role (the role check runs only after
successful authentication); and after successful authentication the
chain admits exactly when the authenticated claims carry the required
role, denying otherwise. -/
theorem authenticate_gate (secret : String) (now : Int)
    (store : String → Except String Nat) (wire : String → TokenStr)
    (hdr : String) :
    (∀ c, Authenticate secret now store wire hdr = .next c →
      VerifyToken secret now store (wire ((stringsSplit hdr ' ').getD 1 "")) = .ok c ∧
      c.tokenType = "access") ∧
    (∀ s m role, Authenticate secret now store wire hdr = .httpError s m →
      AuthenticateThenRequireRole secret now store wire hdr role = .httpError s m) ∧
    (∀ role c, AuthenticateThenRequireRole secret now store wire hdr role = .next c ↔
      Authenticate secret now store wire hdr = .next c ∧ c.role = role) := by
  refine ⟨?_, ?_, ?_⟩
  · intro c h
    simp only [Authenticate] at h
    split at h
    · cases h
    · split at h
      · cases h
      · split at h
        · cases h
        · cases h
        · cases h
        · cases h
        · rename_i claims heq
          split at h
          · cases h
          · rename_i htype
            cases h
            refine ⟨heq, ?_⟩
            simpa using htype
  · intro s m role h
    simp only [AuthenticateThenRequireRole, h]
  · intro role c
    simp only [AuthenticateThenRequireRole]
    cases hA : Authenticate secret now store wire hdr with
    | httpError s m => simp
    | next c0 =>
      simp only [RequireRole]
      by_cases hr : c0.role = role
      · rw [if_neg (by simp [hr])]
        constructor
        · intro hc
          cases hc
          exact ⟨rfl, hr⟩
        · intro ⟨h1, h2⟩
          cases h1
          rfl
      · rw [if_pos hr]
        constructor
        · intro hc
          cases hc
        · intro ⟨h1, h2⟩
          cases h1
          exact absurd h2 hr

/-- Witness for C6 at concrete inputs: with a valid access token behind
the header "Bearer x" the gate admits and the claims verify with type
"access"; a header of the wrong shape is denied and the chain returns
that denial unchanged; the admitted claims pass the role check for their
own role "user". -/
theorem authenticate_gate_witness :
    (VerifyToken "test-secret-key" 0 (fun _ => .ok 0)
        ((fun _ => tokEx) (((stringsSplit "Bearer x" ' ').getD 1 ""))) = .ok claimsEx ∧
      claimsEx.tokenType = "access") ∧
    AuthenticateThenRequireRole "test-secret-key" 0 (fun _ => .ok 0) (fun _ => tokEx)
      "NoBearer" "user" = .httpError 401 "invalid authorization header format" ∧
    AuthenticateThenRequireRole "test-secret-key" 0 (fun _ => .ok 0) (fun _ => tokEx)
      "Bearer x" "user" = .next claimsEx :=
  ⟨(authenticate_gate "test-secret-key" 0 (fun _ => .ok 0) (fun _ => tokEx)
      "Bearer x").1 claimsEx rfl,
   (authenticate_gate "test-secret-key" 0 (fun _ => .ok 0) (fun _ => tokEx)
      "NoBearer").2.1 401 "invalid authorization header format" "user" rfl,
   ((authenticate_gate "test-secret-key" 0 (fun _ => .ok 0) (fun _ => tokEx)
      "Bearer x").2.2 "user" claimsEx).mpr ⟨rfl, rfl⟩⟩

/-! Lemmas about the base64 codec, the record splitter and the scanner,
leading to the decode-of-encode round trip for password-hash records. -/

theorem b64Val_b64Char : ∀ n, n < 64 → b64Val (b64Char n) = some n := by decide

theorem b64Char_not_special : ∀ n, n < 64 →
    (b64Char n ≠ '$' ∧ b64Char n ≠ Char.ofNat 13 ∧ b64Char n ≠ Char.ofNat 10) := by decide

theorem b64DecodeList_b64EncodeList (bs : Bytes) (h : ∀ b ∈ bs, b < 256) :
    b64DecodeList (b64EncodeList bs) = some bs := by
  induction bs using b64EncodeList.induct with
  | case1 => rfl
  | case2 a =>
    have ha : a < 256 := h a (by simp)
    have h1 := b64Val_b64Char (a / 4) (by omega)
    have h2 := b64Val_b64Char (a % 4 * 16) (by omega)
    simp [b64EncodeList, b64DecodeList, h1, h2]
    omega
  | case3 a b =>
    have ha : a < 256 := h a (by simp)
    have hb : b < 256 := h b (by simp)
    have h1 := b64Val_b64Char (a / 4) (by omega)
    have h2 := b64Val_b64Char (a % 4 * 16 + b / 16) (by omega)
    have h3 := b64Val_b64Char (b % 16 * 4) (by omega)
    simp [b64EncodeList, b64DecodeList, h1, h2, h3]
    constructor <;> omega
  | case4 a b c rest ih =>
    have ha : a < 256 := h a (by simp)
    have hb : b < 256 := h b (by simp)
    have hc : c < 256 := h c (by simp)
    have hrest : ∀ x ∈ rest, x < 256 := fun x hx => h x (by simp [hx])
    have h1 := b64Val_b64Char (a / 4) (by omega)
    have h2 := b64Val_b64Char (a % 4 * 16 + b / 16) (by omega)
    have h3 := b64Val_b64Char (b % 16 * 4 + c / 64) (by omega)
    have h4 := b64Val_b64Char (c % 64) (by omega)
    simp [b64EncodeList, b64DecodeList, h1, h2, h3, h4, ih hrest]
    refine ⟨?_, ?_, ?_⟩ <;> omega

theorem b64EncodeList_forall (bs : Bytes) (h : ∀ b ∈ bs, b < 256) :
    ∀ c ∈ b64EncodeList bs, ∃ n, n < 64 ∧ c = b64Char n := by
  induction bs using b64EncodeList.induct with
  | case1 => simp [b64EncodeList]
  | case2 a =>
    have ha : a < 256 := h a (by simp)
    intro c hc
    simp [b64EncodeList] at hc
    rcases hc with rfl | rfl
    · exact ⟨a / 4, by omega, rfl⟩
    · exact ⟨a % 4 * 16, by omega, rfl⟩
  | case3 a b =>
    have ha : a < 256 := h a (by simp)
    have hb : b < 256 := h b (by simp)
    intro c hc
    simp [b64EncodeList] at hc
    rcases hc with rfl | rfl | rfl
    · exact ⟨a / 4, by omega, rfl⟩
    · exact ⟨a % 4 * 16 + b / 16, by omega, rfl⟩
    · exact ⟨b % 16 * 4, by omega, rfl⟩
  | case4 a b c rest ih =>
    have ha : a < 256 := h a (by simp)
    have hb : b < 256 := h b (by simp)
    have hc2 : c < 256 := h c (by simp)
    have hrest : ∀ x ∈ rest, x < 256 := fun x hx => h x (by simp [hx])
    intro x hx
    simp [b64EncodeList] at hx
    rcases hx with rfl | rfl | rfl | rfl | hmem
    · exact ⟨a / 4, by omega, rfl⟩
    · exact ⟨a % 4 * 16 + b / 16, by omega, rfl⟩
    · exact ⟨b % 16 * 4 + c / 64, by omega, rfl⟩
    · exact ⟨c % 64, by omega, rfl⟩
    · exact ih hrest x hmem

theorem b64EncodeList_length (bs : Bytes) :
    (b64EncodeList bs).length = (4 * bs.length + 2) / 3 := by
  induction bs using b64EncodeList.induct with
  | case1 => rfl
  | case2 a => simp [b64EncodeList]
  | case3 a b => simp [b64EncodeList]
  | case4 a b c rest ih =>
    simp [b64EncodeList, ih]
    omega

theorem b64EncodeList_ne_nil (bs : Bytes) (h : bs ≠ []) : b64EncodeList bs ≠ [] := by
  match bs with
  | [] => exact absurd rfl h
  | [a] => simp [b64EncodeList]
  | [a, b] => simp [b64EncodeList]
  | a :: b :: c :: rest => simp [b64EncodeList]

theorem b64Decode_mk_encode (bs : Bytes) (h : ∀ b ∈ bs, b < 256) :
    b64Decode (String.mk (b64EncodeList bs)) = some bs := by
  unfold b64Decode
  have hfilter : (String.mk (b64EncodeList bs)).data.filter
      (fun c => c ≠ Char.ofNat 13 && c ≠ Char.ofNat 10) = b64EncodeList bs := by
    apply List.filter_eq_self.mpr
    intro c hc
    obtain ⟨n, hn, rfl⟩ := b64EncodeList_forall bs h c hc
    have := b64Char_not_special n hn
    simp [this.2.1, this.2.2]
  rw [hfilter]
  exact b64DecodeList_b64EncodeList bs h

theorem b64EncodeList_no_dollar (bs : Bytes) (h : ∀ b ∈ bs, b < 256) :
    '$' ∉ b64EncodeList bs := by
  intro hmem
  obtain ⟨n, hn, he⟩ := b64EncodeList_forall bs h '$' hmem
  exact (b64Char_not_special n hn).1 he.symm

theorem splitHashAux_dollar (rest acc : List Char) :
    splitHashAux ('$' :: rest) acc = String.mk acc :: splitHashAux rest [] := by
  simp [splitHashAux]

theorem splitHashAux_append (s : List Char) (hs : '$' ∉ s) (rest acc : List Char) :
    splitHashAux (s ++ '$' :: rest) acc = String.mk (acc ++ s) :: splitHashAux rest [] := by
  induction s generalizing acc with
  | nil => simp [splitHashAux]
  | cons c cs ih =>
    have hc : c ≠ '$' := by
      rintro rfl
      exact hs (by simp)
    have hcs : '$' ∉ cs := fun h2 => hs (by simp [h2])
    simp only [List.cons_append, splitHashAux, if_neg hc]
    show splitHashAux (cs ++ '$' :: rest) (acc ++ [c]) = _
    rw [ih hcs (acc ++ [c])]
    simp

theorem splitHashAux_last (s : List Char) (hs : '$' ∉ s) (acc : List Char)
    (h : acc ++ s ≠ []) : splitHashAux s acc = [String.mk (acc ++ s)] := by
  induction s generalizing acc with
  | nil =>
    simp only [splitHashAux]
    rw [if_neg (by simpa using h)]
    simp
  | cons c cs ih =>
    have hc : c ≠ '$' := by
      rintro rfl
      exact hs (by simp)
    have hcs : '$' ∉ cs := fun h2 => hs (by simp [h2])
    simp only [splitHashAux, if_neg hc]
    show splitHashAux cs (acc ++ [c]) = _
    rw [ih hcs (acc ++ [c]) (by simp)]
    simp

theorem splitHashAux_record (sb hb : List Char) (hsb : '$' ∉ sb)
    (hhb : '$' ∉ hb) (hne : hb ≠ []) :
    splitHashAux ("$argon2id$v=19$m=65536,t=3,p=2$".data ++ (sb ++ '$' :: hb)) [] =
      ["", "argon2id", "v=19", "m=65536,t=3,p=2", String.mk sb, String.mk hb] := by
  have e1 : "$argon2id$v=19$m=65536,t=3,p=2$".data ++ (sb ++ '$' :: hb) =
      '$' :: ("argon2id".data ++ '$' :: ("v=19".data ++ '$' ::
        ("m=65536,t=3,p=2".data ++ '$' :: (sb ++ '$' :: hb)))) := rfl
  rw [e1, splitHashAux_dollar,
    splitHashAux_append "argon2id".data (by decide),
    splitHashAux_append "v=19".data (by decide),
    splitHashAux_append "m=65536,t=3,p=2".data (by decide),
    splitHashAux_append sb hsb,
    splitHashAux_last hb hhb [] (by simpa using hne)]
  simp only [List.nil_append]

theorem scanParams_record (X : List Char) :
    scanParams ("$argon2id$v=19$m=65536,t=3,p=2$".data ++ X) = some (65536, 3, 2) := rfl

theorem str_data_append (a b : String) : (a ++ b).data = a.data ++ b.data := rfl

theorem hashPassword_data (idKey : String → Bytes → Nat → Nat → Nat → Nat → Bytes)
    (pw : String) (salt : Bytes) :
    (HashPassword idKey pw salt).data =
      "$argon2id$v=19$m=65536,t=3,p=2$".data ++
        (b64EncodeList salt ++ '$' :: b64EncodeList (idKey pw salt 3 65536 2 32)) := by
  have e2 : ∀ X : List Char,
      "$argon2id$v=19$m=".data ++ ((toString (65536 : Nat)).data ++ (",t=".data ++
        ((toString (3 : Nat)).data ++ (",p=".data ++ ((toString (2 : Nat)).data ++
          ("$".data ++ X)))))) = "$argon2id$v=19$m=65536,t=3,p=2$".data ++ X :=
    fun X => rfl
  simp only [HashPassword, defaultParams, b64Encode, str_data_append, List.append_assoc]
  rw [show ("$".data : List Char) ++ b64EncodeList (idKey pw salt 3 65536 2 32) =
    '$' :: b64EncodeList (idKey pw salt 3 65536 2 32) from rfl]
  exact e2 _

theorem decodeHash_hashPassword (idKey : String → Bytes → Nat → Nat → Nat → Nat → Bytes)
    (pw : String) (salt : Bytes)
    (hsalt : ∀ b ∈ salt, b < 256)
    (hhash : ∀ b ∈ idKey pw salt 3 65536 2 32, b < 256)
    (hne : idKey pw salt 3 65536 2 32 ≠ []) :
    decodeHash (HashPassword idKey pw salt) =
      .ok ({ memory := 65536, iterations := 3, parallelism := 2,
             saltLength := salt.length,
             keyLength := (idKey pw salt 3 65536 2 32).length },
           salt, idKey pw salt 3 65536 2 32) := by
  have hd := hashPassword_data idKey pw salt
  have hsb := b64EncodeList_no_dollar salt hsalt
  have hhb := b64EncodeList_no_dollar _ hhash
  have hhne := b64EncodeList_ne_nil _ hne
  unfold decodeHash splitHashString
  rw [hd, scanParams_record, splitHashAux_record _ _ hsb hhb hhne]
  show (match b64Decode (String.mk (b64EncodeList salt)) with
    | none => (Except.error "invalid salt encoding" :
        Except String (PasswordParams × Bytes × Bytes))
    | some s2 =>
      match b64Decode (String.mk (b64EncodeList (idKey pw salt 3 65536 2 32))) with
      | none => Except.error "invalid hash encoding"
      | some h2 =>
        Except.ok ({ memory := 65536, iterations := 3, parallelism := 2,
                     saltLength := s2.length, keyLength := h2.length }, s2, h2)) = _
  rw [b64Decode_mk_encode salt hsalt, b64Decode_mk_encode _ hhash]

/-- C7: verifying a wrong password against a well-formed record produced
by `HashPassword` returns false with no error (given that the key derived
from the wrong password differs from the stored key, which is the
point of the key-derivation function), while verifying any password
against the undecodable record "garbage" returns the decode error — the
two failure classes are never conflated. -/
theorem verifyPassword_wrong_vs_malformed
    (idKey : String → Bytes → Nat → Nat → Nat → Nat → Bytes)
    (p wrong : String) (salt : Bytes)
    (hsalt : ∀ b ∈ salt, b < 256)
    (hhash : ∀ b ∈ idKey p salt 3 65536 2 32, b < 256)
    (hne : idKey p salt 3 65536 2 32 ≠ [])
    (hdiff : idKey wrong salt 3 65536 2 (idKey p salt 3 65536 2 32).length ≠
      idKey p salt 3 65536 2 32) :
    VerifyPassword idKey wrong (HashPassword idKey p salt) = .ok false ∧
    VerifyPassword idKey p "garbage" = .error "invalid hash format" := by
  constructor
  · unfold VerifyPassword
    rw [decodeHash_hashPassword idKey p salt hsalt hhash hne]
    simp only [constantTimeCompare]
    congr 1
    rw [beq_eq_false_iff_ne]
    exact fun h => hdiff h.symm
  · rfl

/-- C9: two `HashPassword` calls on the same password with distinct
freshly generated salts (16 random bytes each, as the source draws them)
yield different encoded records, and verifying the password against each
of its own records succeeds — given the key-derivation contract that
`argon2.IDKey` returns exactly `keyLength` bytes. -/
theorem hashPassword_salt_distinct_and_roundtrip
    (idKey : String → Bytes → Nat → Nat → Nat → Nat → Bytes)
    (p : String) (s1 s2 : Bytes)
    (h1 : ∀ b ∈ s1, b < 256) (h2 : ∀ b ∈ s2, b < 256)
    (hlen1 : s1.length = 16) (hlen2 : s2.length = 16)
    (hdiff : s1 ≠ s2)
    (hh1 : ∀ b ∈ idKey p s1 3 65536 2 32, b < 256)
    (hh2 : ∀ b ∈ idKey p s2 3 65536 2 32, b < 256)
    (hkl1 : (idKey p s1 3 65536 2 32).length = 32)
    (hkl2 : (idKey p s2 3 65536 2 32).length = 32) :
    HashPassword idKey p s1 ≠ HashPassword idKey p s2 ∧
    VerifyPassword idKey p (HashPassword idKey p s1) = .ok true ∧
    VerifyPassword idKey p (HashPassword idKey p s2) = .ok true := by
  have hne1 : idKey p s1 3 65536 2 32 ≠ [] := by
    intro h
    rw [h] at hkl1
    cases hkl1
  have hne2 : idKey p s2 3 65536 2 32 ≠ [] := by
    intro h
    rw [h] at hkl2
    cases hkl2
  refine ⟨?_, ?_, ?_⟩
  · intro heq
    have hdata := congrArg String.data heq
    rw [hashPassword_data, hashPassword_data] at hdata
    have h3 := List.append_cancel_left hdata
    have hlenE : (b64EncodeList s1).length = (b64EncodeList s2).length := by
      rw [b64EncodeList_length, b64EncodeList_length, hlen1, hlen2]
    have h4 := (List.append_inj h3 hlenE).1
    have h5 := congrArg b64DecodeList h4
    rw [b64DecodeList_b64EncodeList s1 h1, b64DecodeList_b64EncodeList s2 h2] at h5
    exact hdiff (Option.some.inj h5)
  · unfold VerifyPassword
    rw [decodeHash_hashPassword idKey p s1 h1 hh1 hne1]
    simp only [constantTimeCompare]
    rw [hkl1]
    simp
  · unfold VerifyPassword
    rw [decodeHash_hashPassword idKey p s2 h2 hh2 hne2]
    simp only [constantTimeCompare]
    rw [hkl2]
    simp

/-- C10: for every record that decodes, `decodeHash` records the decoded
hash length as `KeyLength` and the decoded salt length as `SaltLength`
(not the configured defaults), and `VerifyPassword` re-derives the
comparison key at exactly the stored hash's decoded length — so a record
carrying a shorter stored hash is compared at that shorter length. -/
theorem verifyPassword_uses_stored_lengths
    (idKey : String → Bytes → Nat → Nat → Nat → Nat → Bytes)
    (pw r : String) (params : PasswordParams) (salt hash : Bytes)
    (h : decodeHash r = .ok (params, salt, hash)) :
    params.keyLength = hash.length ∧ params.saltLength = salt.length ∧
    VerifyPassword idKey pw r =
      .ok (constantTimeCompare hash
        (idKey pw salt params.iterations params.memory params.parallelism
          hash.length)) := by
  have h0 := h
  unfold decodeHash at h
  split at h
  · cases h
  · simp only [] at h
    split at h
    · cases h
    · split at h
      · cases h
      · split at h
        · cases h
        · rename_i mem iter par hscan salt2 hsalt2 hash2 hhash2
          injection h with h
          injection h with hp h
          injection h with hs hh
          subst hp
          subst hs
          subst hh
          refine ⟨rfl, rfl, ?_⟩
          unfold VerifyPassword
          rw [h0]

/-- C8 counterexample: the claim says any record whose splitting on the
dollar sign yields a field count other than six is rejected, but the
record "$argon2id$v=19$m=65536,t=3,p=2$AAAA$AAAA$" — which has seven
fields under standard splitting because of its trailing dollar sign — is
accepted by `decodeHash`, since `splitHashString` silently drops the
trailing empty field. -/
theorem decodeHash_accepts_trailing_dollar :
    (specSplitDollar "$argon2id$v=19$m=65536,t=3,p=2$AAAA$AAAA$").length = 7 ∧
    decodeHash "$argon2id$v=19$m=65536,t=3,p=2$AAAA$AAAA$" =
      .ok ({ memory := 65536, iterations := 3, parallelism := 2,
             saltLength := 3, keyLength := 3 }, [0, 0, 0], [0, 0, 0]) :=
  ⟨rfl, rfl⟩

/-- C8 (amended): the decoder accepts a record only if the code's own
splitter — which drops one trailing empty field, so a single trailing
dollar sign is tolerated — yields exactly six fields; any record whose
code-split field count differs from six is rejected with the decode
error. -/
theorem decodeHash_six_fields_code_split (s : String) :
    ((splitHashString s).length ≠ 6 → decodeHash s = .error "invalid hash format") ∧
    (∀ out, decodeHash s = .ok out → (splitHashString s).length = 6) := by
  have key : (splitHashString s).length ≠ 6 →
      decodeHash s = .error "invalid hash format" := by
    intro h
    unfold decodeHash
    cases hscan : scanParams s.data with
    | none => rfl
    | some v =>
      obtain ⟨mem, iter, par⟩ := v
      simp only []
      rw [if_pos h]
  refine ⟨key, ?_⟩
  intro out hout
  by_contra hl
  rw [key hl] at hout
  cases hout

/-- Witness for C8 (amended) at concrete inputs: the two-field string
"garbage$x" is rejected, and a record that decodes has exactly six
code-split fields. -/
theorem decodeHash_six_fields_code_split_witness :
    decodeHash "garbage$x" = .error "invalid hash format" ∧
    (splitHashString "$argon2id$v=19$m=65536,t=3,p=2$AAAA$AAAA").length = 6 :=
  ⟨(decodeHash_six_fields_code_split "garbage$x").1 (by decide),
   (decodeHash_six_fields_code_split "$argon2id$v=19$m=65536,t=3,p=2$AAAA$AAAA").2
     ⟨{ memory := 65536, iterations := 3, parallelism := 2,
        saltLength := 3, keyLength := 3 }, [0, 0, 0], [0, 0, 0]⟩ rfl⟩

/-- Witness for C7 at concrete inputs: with a concrete key-derivation
function, the wrong password "x" against the record hashed from "pw"
yields false without an error, and "garbage" yields the decode error. -/
theorem verifyPassword_wrong_vs_malformed_witness :
    VerifyPassword idKeyEx "x" (HashPassword idKeyEx "pw" saltEx0) = .ok false ∧
    VerifyPassword idKeyEx "pw" "garbage" = .error "invalid hash format" :=
  verifyPassword_wrong_vs_malformed idKeyEx "pw" "x" saltEx0
    (by decide) (by decide) (by decide) (by decide)

/-- Witness for C9 at concrete inputs: hashing "pw" under two distinct
16-byte salts yields distinct records, each verifying true. -/
theorem hashPassword_salt_distinct_and_roundtrip_witness :
    HashPassword idKeyEx "pw" saltEx0 ≠ HashPassword idKeyEx "pw" saltEx1 ∧
    VerifyPassword idKeyEx "pw" (HashPassword idKeyEx "pw" saltEx0) = .ok true ∧
    VerifyPassword idKeyEx "pw" (HashPassword idKeyEx "pw" saltEx1) = .ok true :=
  hashPassword_salt_distinct_and_roundtrip idKeyEx "pw" saltEx0 saltEx1
    (by decide) (by decide) (by decide) (by decide) (by decide)
    (by decide) (by decide) (by decide) (by decide)

/-- Witness for C10 at a concrete record whose stored hash decodes to
only three bytes: the recorded lengths both equal three and the
comparison key is derived at length three. -/
theorem verifyPassword_uses_stored_lengths_witness :
    ({ memory := 65536, iterations := 3, parallelism := 2,
       saltLength := 3, keyLength := 3 } : PasswordParams).keyLength =
        ([0, 0, 0] : Bytes).length ∧
    ({ memory := 65536, iterations := 3, parallelism := 2,
       saltLength := 3, keyLength := 3 } : PasswordParams).saltLength =
        ([0, 0, 0] : Bytes).length ∧
    VerifyPassword idKeyEx "pw" "$argon2id$v=19$m=65536,t=3,p=2$AAAA$AAAA" =
      .ok (constantTimeCompare [0, 0, 0]
        (idKeyEx "pw" [0, 0, 0] 3 65536 2 ([0, 0, 0] : Bytes).length)) :=
  verifyPassword_uses_stored_lengths idKeyEx "pw"
    "$argon2id$v=19$m=65536,t=3,p=2$AAAA$AAAA"
    { memory := 65536, iterations := 3, parallelism := 2,
      saltLength := 3, keyLength := 3 } [0, 0, 0] [0, 0, 0] rfl

end JwtBlacklist
